import Mathlib

/-!
Verification of the usage metering and reset scheduling engine of
@eggermarc/better-auth-usage.

Shallow embedding conventions:
* JavaScript `Date` values are modelled by the `DateTime` structure holding the
  civil calendar fields that the source manipulates through `getHours`,
  `setDate`, `setMonth`, ... . A normalized (`DateTime.Valid`) value's
  chronological order coincides with the lexicographic order of its fields,
  which the linear `DateTime.key` collation realises, so every `<`/`<=`
  comparison of the source is embedded as a comparison of `key`s.
* JavaScript numbers holding amounts and limits are embedded as `Int`.
* `undefined`/`null` become `Option`; JS truthiness of a number is
  `v ≠ 0` on `some v` and `false` on `none`.
* Code that throws a `TypeError` (e.g. reading a field of `undefined`)
  is embedded as returning `none`.
* The storage adapter's `transaction` callback is embedded as an atomic
  function of the ledger state, per the Storage Adapter contract.
-/

/-- Cadences of the `ResetType` union in `src/package/types.ts`
(`"6-hourly"` is spelled `sixHourly`). -/
inductive ResetType
  | hourly
  | sixHourly
  | daily
  | weekly
  | monthly
  | quarterly
  | yearly
  | never
deriving DecidableEq, Repr

/-- Outcomes of the `ConsumptionLimitType` union in `src/package/types.ts`. -/
inductive ConsumptionLimitType
  | inLimit
  | aboveMaxLimit
  | belowMinLimit
deriving DecidableEq, Repr

/-- Truthiness of an optional JS number: `undefined` and `0` are falsy. -/
def numTruthy (x : Option Int) : Bool :=
  match x with
  | none => false
  | some v => v != 0

/-- Embedding of `checkLimit` from `src/package/utils.ts` (both revisions are
identical): `if (maxLimit && value > maxLimit) ...; if (minLimit && value < minLimit) ...`.
The guards use JS truthiness on the limit values. -/
def checkLimit (maxLimit minLimit : Option Int) (value : Int) : ConsumptionLimitType :=
  if numTruthy maxLimit ∧ maxLimit.getD 0 < value then ConsumptionLimitType.aboveMaxLimit
  else if numTruthy minLimit ∧ value < minLimit.getD 0 then ConsumptionLimitType.belowMinLimit
  else ConsumptionLimitType.inLimit

/-- Civil date-time with the field conventions of JS `Date` accessors:
`month` is 0-based (0 = January), `day` is 1-based, `hour`/`minute`/`second`/`ms`
as usual. -/
structure DateTime where
  year : Int
  month : Nat
  day : Nat
  hour : Nat
  minute : Nat
  second : Nat
  ms : Nat
deriving DecidableEq, Repr

/-- Linear collation of a `DateTime`. For valid (normalized) values this is
strictly monotone in chronological order, because each coefficient dominates
the maximal value of the lower-order fields (32 > 31 days, 24 hours, ...).
JS compares `Date`s by epoch milliseconds; for normalized civil fields that
order equals this lexicographic collation. -/
def DateTime.key (t : DateTime) : Int :=
  t.year * 33177600000 + (t.month : Int) * 2764800000 + (t.day : Int) * 86400000
    + (t.hour : Int) * 3600000 + (t.minute : Int) * 60000 + (t.second : Int) * 1000
    + (t.ms : Int)

/-- Gregorian leap-year test, as JS `Date` normalization uses. -/
def isLeap (y : Int) : Bool :=
  (y % 4 == 0 && y % 100 != 0) || y % 400 == 0

/-- Number of days of month `m` (0-based) in year `y`. -/
def daysInMonth (y : Int) (m : Nat) : Nat :=
  match m with
  | 0 => 31
  | 1 => if isLeap y then 29 else 28
  | 2 => 31
  | 3 => 30
  | 4 => 31
  | 5 => 30
  | 6 => 31
  | 7 => 31
  | 8 => 30
  | 9 => 31
  | 10 => 30
  | _ => 31

/-- A `DateTime` is valid when each field is in the normalized range a JS
`Date` reports. -/
def DateTime.Valid (t : DateTime) : Prop :=
  t.month < 12 ∧ 1 ≤ t.day ∧ t.day ≤ daysInMonth t.year t.month
    ∧ t.hour < 24 ∧ t.minute < 60 ∧ t.second < 60 ∧ t.ms < 1000

instance (t : DateTime) : Decidable t.Valid := by
  unfold DateTime.Valid
  infer_instance

/-- Days since 1970-01-01 of the date part, by the standard civil-from-days
algorithm; JS `Date` stores this implicitly as part of its epoch value. -/
def daysFromCivil (t : DateTime) : Int :=
  let m : Int := (t.month : Int) + 1
  let y : Int := if m ≤ 2 then t.year - 1 else t.year
  let era : Int := (if 0 ≤ y then y else y - 399) / 400
  let yoe : Int := y - era * 400
  let mp : Int := (m + 9) % 12
  let doy : Int := (153 * mp + 2) / 5 + (t.day : Int) - 1
  let doe : Int := yoe * 365 + yoe / 4 - yoe / 100 + doy
  era * 146097 + doe - 719468

/-- JS `Date.prototype.getDay`: 0 = Sunday. 1970-01-01 was a Thursday (4). -/
def dayOfWeek (t : DateTime) : Nat :=
  ((daysFromCivil t + 4) % 7).toNat

/-- JS `setHours(0, 0, 0, 0)`. -/
def atMidnight (t : DateTime) : DateTime :=
  { t with hour := 0, minute := 0, second := 0, ms := 0 }

/-- JS `setDate(getDate() + 1)` on a normalized date: increment with month and
year rollover. -/
def nextDay (t : DateTime) : DateTime :=
  if t.day < daysInMonth t.year t.month then { t with day := t.day + 1 }
  else if t.month < 11 then { t with month := t.month + 1, day := 1 }
  else { t with year := t.year + 1, month := 0, day := 1 }

/-- JS `setDate(getDate() + k)` for `k ≥ 0` on a normalized date. -/
def addDays : DateTime → Nat → DateTime
  | t, 0 => t
  | t, n + 1 => addDays (nextDay t) n

/-- Embedding of `computeNextResetTime` from `src/package/utils.ts`
(lines 116-170). Each arm mirrors the corresponding `switch` case:
* `hourly`: `setHours(getHours() + 1, 0, 0, 0)`, rolling into the next day
  when the hour was 23;
* `sixHourly`: next block of `{0, 6, 12, 18}`, or next midnight past 18;
* `daily`: `setDate(getDate() + 1); setHours(0,0,0,0)`;
* `weekly`: `(8 - getDay()) % 7 || 7` days ahead at midnight;
* `monthly`: `setMonth(getMonth() + 1, 1)` at midnight (year rollover when
  the month was December);
* `quarterly`: next quarter-start month, or January 1 of the next year
  (the source's `setFullYear` + `setMonth(0, 1)` sequence lands there for
  every start date, including Feb 29);
* `yearly`: `setFullYear(getFullYear() + 1, 0, 1)` at midnight;
* `never`: returns the base unchanged. -/
def computeNextResetTime (base : DateTime) (reset : ResetType) : DateTime :=
  match reset with
  | ResetType.hourly =>
      if base.hour + 1 < 24 then
        { base with hour := base.hour + 1, minute := 0, second := 0, ms := 0 }
      else atMidnight (nextDay base)
  | ResetType.sixHourly =>
      let nextBlock := base.hour / 6 * 6 + 6
      if 24 ≤ nextBlock then atMidnight (nextDay base)
      else { base with hour := nextBlock, minute := 0, second := 0, ms := 0 }
  | ResetType.daily => atMidnight (nextDay base)
  | ResetType.weekly =>
      let r := (8 - dayOfWeek base) % 7
      let k := if r = 0 then 7 else r
      atMidnight (addDays base k)
  | ResetType.monthly =>
      if base.month < 11 then atMidnight { base with month := base.month + 1, day := 1 }
      else atMidnight { base with year := base.year + 1, month := 0, day := 1 }
  | ResetType.quarterly =>
      let q := base.month / 3 * 3 + 3
      if 12 ≤ q then atMidnight { base with year := base.year + 1, month := 0, day := 1 }
      else atMidnight { base with month := q, day := 1 }
  | ResetType.yearly => atMidnight { base with year := base.year + 1, month := 0, day := 1 }
  | ResetType.never => base

/-- Result record of the revised `shouldReset` in `src/package/utils.ts`
(lines 94-114). -/
structure ShouldResetResult where
  shouldReset : Bool
  nextReset : Option DateTime
deriving DecidableEq, Repr

/-- Embedding of the `while (nextResetTime <= now)` loop of `shouldReset`.
JS has no fuel; the fuel is shown to be irrelevant because the very first
candidate already lies strictly after `now`. -/
def resetIter (reset : ResetType) (now : DateTime) : Nat → DateTime → DateTime
  | 0, t => t
  | n + 1, t =>
      if t.key ≤ now.key then resetIter reset now n (computeNextResetTime t reset) else t

/-- Embedding of `shouldReset` from `src/package/utils.ts` (lines 94-114):
`never` short-circuits to `{shouldReset: false}`; otherwise the upcoming
boundary is iterated from `now` until strictly past `now`, and the stream is
due when `!lastReset || lastReset < nextResetTime`. -/
def shouldReset (lastReset : Option DateTime) (reset : ResetType) (now : DateTime)
    (fuel : Nat) : ShouldResetResult :=
  if reset = ResetType.never then ⟨false, none⟩
  else
    let nextResetTime := resetIter reset now fuel (computeNextResetTime now reset)
    match lastReset with
    | none => ⟨true, some nextResetTime⟩
    | some lr =>
        if lr.key < nextResetTime.key then ⟨true, some nextResetTime⟩
        else ⟨false, some nextResetTime⟩

/-- Embedding of the boolean draft revision of `shouldReset`
(`src/package/utils.ts` lines 19-74), whose `switch` body is the same
computation as `computeNextResetTime`:
`now >= nextResetTime || (lastReset ? lastReset < nextResetTime : true)`. -/
def shouldResetB (lastReset : Option DateTime) (reset : ResetType) (now : DateTime) : Bool :=
  match reset with
  | ResetType.never => false
  | _ =>
      let nextResetTime := computeNextResetTime now reset
      (nextResetTime.key ≤ now.key)
        || (match lastReset with
            | some lr => lr.key < nextResetTime.key
            | none => true)

/-- Hook input of `src/package/types.ts` (`UsageData` plus the customer; the
`feature` argument is omitted here because a feature cannot recursively occur
in its own hook type in the embedding, and no claim observes it). -/
structure HookInput where
  amount : Int
  beforeAmount : Int
  afterAmount : Int
  customerId : String
deriving DecidableEq, Repr

/-- Lifecycle hook: may fail (a JS hook that throws). -/
def Hook : Type := HookInput → Except String Unit

/-- Optional `before`/`after` hook slots of a `Feature`. -/
structure Hooks where
  before : Option Hook := none
  after : Option Hook := none

/-- Customer record per `customerSchema` (`src/package/schema.ts`, plus the
`overrideKey` field that `registerCustomer` in `src/package/index.ts` reads). -/
structure FeatureLimitOverride where
  maxLimit : Option Int := none
  minLimit : Option Int := none
deriving DecidableEq, Repr

structure Customer where
  referenceId : String
  referenceType : String
  email : Option String := none
  name : Option String := none
  overrideKey : Option String := none
  featureLimits : Option (String → Option FeatureLimitOverride) := none

/-- Feature definition per `src/package/types.ts`. `authorize` stands for
`authorizeReference`. -/
structure Feature where
  key : String
  maxLimit : Option Int := none
  minLimit : Option Int := none
  details : Option (List String) := none
  stripeId : Option String := none
  reset : Option ResetType := none
  resetValue : Option Int := none
  hooks : Option Hooks := none
  authorize : Option (Customer → Bool) := none

/-- Partial feature carried by an override
(`Partial<Omit<Feature, "key">>` in `src/package/types.ts`): a `some` field is
a key present in the object, a `none` field is an absent key. -/
structure PartialFeature where
  maxLimit : Option (Option Int) := none
  minLimit : Option (Option Int) := none
  details : Option (Option (List String)) := none
  stripeId : Option (Option String) := none
  reset : Option (Option ResetType) := none
  resetValue : Option (Option Int) := none
  hooks : Option (Option Hooks) := none
  authorize : Option (Option (Customer → Bool)) := none

/-- Override entry of the `Overrides` record. -/
structure Override where
  features : String → Option PartialFeature

/-- JS object spread `{...feature, ...overrideFeature}`: every key present in
the override replaces the base field wholesale; absent keys keep the base. -/
def mergeFeature (base : Feature) (p : PartialFeature) : Feature :=
  { key := base.key
    maxLimit := p.maxLimit.getD base.maxLimit
    minLimit := p.minLimit.getD base.minLimit
    details := p.details.getD base.details
    stripeId := p.stripeId.getD base.stripeId
    reset := p.reset.getD base.reset
    resetValue := p.resetValue.getD base.resetValue
    hooks := p.hooks.getD base.hooks
    authorize := p.authorize.getD base.authorize }

/-- JS object spread of a customer's per-feature limit override
(`{...feature, ...customer.featureLimits[featureKey]}`). -/
def mergeLimits (base : Feature) (o : FeatureLimitOverride) : Feature :=
  { base with
    maxLimit := match o.maxLimit with
      | some v => some v
      | none => base.maxLimit
    minLimit := match o.minLimit with
      | some v => some v
      | none => base.minLimit }

/-- Errors surfaced by the plugin endpoints via `APIError`. -/
inductive ApiError
  | notFound
  | unauthorized
deriving DecidableEq, Repr

/-- Embedding of `getFeature` from `src/package/index.ts` (lines 65-97).
The guard checks `params.overrideKey && overrides?.[params.overrideKey]`
(JS truthiness: the empty string is falsy), but the override applied is read
from `overrides[params.featureKey]` — exactly as in the source. -/
def getFeature (features : String → Option Feature) (overrides : String → Option Override)
    (featureKey : String) (overrideKey : Option String) (customer : Option Customer) :
    Except ApiError Feature :=
  match features featureKey with
  | none => Except.error ApiError.notFound
  | some feature0 =>
      let feature1 :=
        match overrideKey with
        | some ok =>
            if ok ≠ "" ∧ (overrides ok).isSome then
              match overrides featureKey with
              | some ov =>
                  match ov.features featureKey with
                  | some pf => mergeFeature feature0 pf
                  | none => feature0
              | none => feature0
            else feature0
        | none => feature0
      let feature2 :=
        match customer with
        | some c =>
            match c.featureLimits with
            | some fl =>
                match fl featureKey with
                | some o => mergeLimits feature1 o
                | none => feature1
            | none => feature1
        | none => feature1
      Except.ok feature2

/-- Embedding of `resolveFeature` from `src/package/resolvers/features.ts`
(lines 14-40): the override is looked up under `overrideKey`. -/
def resolveFeature (featureKey : String) (overrideKey : Option String)
    (features : String → Option Feature) (overrides : String → Option Override) :
    Except ApiError Feature :=
  match features featureKey with
  | none => Except.error ApiError.notFound
  | some feature0 =>
      Except.ok
        (match overrideKey with
        | some ok =>
            if ok ≠ "" ∧ (overrides ok).isSome then
              match overrides ok with
              | some ov =>
                  match ov.features featureKey with
                  | some pf => mergeFeature feature0 pf
                  | none => feature0
              | none => feature0
            else feature0
        | none => feature0)

/-- Usage ledger row, per the `usage` model fields that
`src/package/adapter.ts` reads and writes (`beforeAmount` appears only in the
draft plain-insert revision's schema and is never read; it is omitted). -/
structure UsageRow where
  referenceId : String
  referenceType : String
  feature : String
  event : String
  amount : Int
  afterAmount : Int
  lastResetAt : Option DateTime := none
  createdAt : DateTime
deriving DecidableEq, Repr

/-- Append-only usage ledger, in insertion order. -/
abbrev Ledger : Type := List UsageRow

/-- Latest matching row: `findMany` sorted by `createdAt` descending, first
element. Among equal `createdAt` values the backend order is unspecified; this
embedding keeps the earliest inserted, and every theorem below uses rows with
distinct timestamps. -/
def findLatestBy (l : Ledger) (p : UsageRow → Bool) : Option UsageRow :=
  List.foldl
    (fun acc r =>
      match acc with
      | none => some r
      | some a => if a.createdAt.key < r.createdAt.key then some r else some a)
    none (List.filter p l)

/-- Embedding of `findLatestUsage` from `src/package/adapter.ts` (lines 8-45):
filter by stream and optionally by event tag. -/
def findLatestUsage (l : Ledger) (referenceId featureKey : String) (event : Option String) :
    Option UsageRow :=
  findLatestBy l (fun r =>
    r.referenceId == referenceId && r.feature == featureKey
      && (match event with
          | some e => r.event == e
          | none => true))

/-- Latest row filtered by `referenceId` only: the query the adapter's
`syncUsage` transaction issues (`src/package/adapter.ts` lines 119-124). -/
def findLatestByReference (l : Ledger) (referenceId : String) : Option UsageRow :=
  findLatestBy l (fun r => r.referenceId == referenceId)

namespace Adapter

/-- Embedding of the transactional `insertUsage` of `src/package/adapter.ts`
(lines 47-107). Inside the transaction the latest row of the stream is
re-read, `shouldReset` is consulted on its `lastResetAt`, and the new row's
`afterAmount` is computed from that freshly read row. When no reset is due
and the stream is empty, the source dereferences `lastUsage[0].lastResetAt`
on `undefined` and throws; that is the `none` result. -/
def insertUsage (l : Ledger) (amount : Int) (referenceId referenceType event : String)
    (feature : Feature) (now : DateTime) (fuel : Nat) : Option (UsageRow × Ledger) :=
  let last := findLatestUsage l referenceId feature.key none
  let reset := shouldReset (last.bind (fun r => r.lastResetAt))
    (feature.reset.getD ResetType.never) now fuel
  match reset.shouldReset, reset.nextReset with
  | true, some nr =>
      let row : UsageRow :=
        { referenceId := referenceId, referenceType := referenceType, event := event
          amount := amount, feature := feature.key, lastResetAt := some nr
          afterAmount := amount + feature.resetValue.getD 0, createdAt := now }
      some (row, l ++ [row])
  | _, _ =>
      match last with
      | none => none
      | some lastRow =>
          let row : UsageRow :=
            { referenceId := referenceId, referenceType := referenceType, event := event
              amount := amount, feature := feature.key, lastResetAt := lastRow.lastResetAt
              afterAmount := amount + lastRow.afterAmount, createdAt := now }
          some (row, l ++ [row])

/-- Embedding of the adapter's `syncUsage` transaction
(`src/package/adapter.ts` lines 109-145). It reads the latest row for the
reference (dereferencing it unconditionally: an empty result throws, the outer
`none`), asks `shouldReset` on that row's `lastResetAt`, and when due appends a
zero-amount reset row stamped with the upcoming boundary in both `lastResetAt`
and `createdAt`; otherwise the transaction returns without inserting. -/
def syncUsage (l : Ledger) (referenceId referenceType featureKey : String)
    (reset : Option ResetType) (resetValue : Option Int) (now : DateTime) (fuel : Nat) :
    Option (Option UsageRow × Ledger) :=
  match findLatestByReference l referenceId with
  | none => none
  | some lastRow =>
      let r := shouldReset lastRow.lastResetAt (reset.getD ResetType.never) now fuel
      match r.shouldReset, r.nextReset with
      | true, some nr =>
          let row : UsageRow :=
            { referenceId := referenceId, referenceType := referenceType, event := "reset"
              amount := 0, feature := featureKey, afterAmount := resetValue.getD 0
              lastResetAt := some nr, createdAt := nr }
          some (some row, l ++ [row])
      | _, _ => some (none, l)

/-- Embedding of the draft plain `insertUsage`
(second revision in `src/package/adapter.ts`): a bare `create` storing the
caller-supplied `afterAmount`, stamped with the current time. -/
def insertUsagePlain (l : Ledger) (referenceId referenceType feature event : String)
    (amount afterAmount : Int) (now : DateTime) : UsageRow × Ledger :=
  let row : UsageRow :=
    { referenceId := referenceId, referenceType := referenceType, feature := feature
      event := event, amount := amount, afterAmount := afterAmount
      lastResetAt := none, createdAt := now }
  (row, l ++ [row])

end Adapter

/-- Result of the plugin-level `syncUsage` of `src/package/index.ts`
(lines 29-63): `{reset: false, reason}` or `{reset: true, usage}`. -/
inductive SyncResult
  | noReset
  | notDue
  | reset (row : UsageRow)
deriving DecidableEq, Repr

/-- Whether a `SyncResult` inserted a reset row. -/
def SyncResult.isReset : SyncResult → Bool
  | SyncResult.reset _ => true
  | _ => false

/-- Embedding of the plugin-level `syncUsage` of `src/package/index.ts`
(lines 29-63): no-op for an absent or `never` cadence; otherwise the latest
`"reset"` row's `createdAt` is fed to the boolean `shouldReset` draft (the
revision whose return type the call site consumes as a boolean), and when due
a zero-amount `"reset"` row with `afterAmount = resetValue ?? 0` is inserted
through the plain insert the call's argument shape selects. -/
def syncUsage (l : Ledger) (feature : Feature) (customer : Customer) (now : DateTime) :
    SyncResult × Ledger :=
  match feature.reset with
  | none => (SyncResult.noReset, l)
  | some ResetType.never => (SyncResult.noReset, l)
  | some c =>
      let lastReset := findLatestUsage l customer.referenceId feature.key (some "reset")
      let lastResetDate := lastReset.map (fun r => r.createdAt)
      if shouldResetB lastResetDate c now then
        let ins := Adapter.insertUsagePlain l customer.referenceId customer.referenceType
          feature.key "reset" 0 (feature.resetValue.getD 0) now
        (SyncResult.reset ins.1, ins.2)
      else (SyncResult.notDue, l)

/-- Failure modes of the consume endpoint. -/
inductive ConsumeError
  | customerNotFound
  | featureNotFound
  | hookFailure (msg : String)
  | adapterFailure
deriving DecidableEq, Repr

/-- Embedding of the consume operation (`consumeFeature` in
`src/package/index.ts` lines 309-358, whose endpoint-file revision passes the
resolved feature object into the transactional `Adapter.insertUsage`): resolve
customer and feature, read the latest row, compute `beforeAmount`/`afterAmount`
for the hook context, run the before-hook (aborting with no write on failure),
append through the adapter, then run the after-hook with no surrounding
try/catch. The returned pair carries the operation outcome and the ledger. -/
def consumeFeature (customers : String → Option Customer)
    (features : String → Option Feature) (overrides : String → Option Override)
    (referenceId featureKey : String) (overrideKey : Option String)
    (amount : Int) (event : String) (l : Ledger) (now : DateTime) (fuel : Nat) :
    Except ConsumeError UsageRow × Ledger :=
  match customers referenceId with
  | none => (Except.error ConsumeError.customerNotFound, l)
  | some customer =>
      match getFeature features overrides featureKey overrideKey (some customer) with
      | Except.error _ => (Except.error ConsumeError.featureNotFound, l)
      | Except.ok feature =>
          let lastUsage := findLatestUsage l customer.referenceId feature.key none
          let beforeAmount := (lastUsage.map (fun r => r.afterAmount)).getD 0
          let afterAmount := beforeAmount + amount
          let input : HookInput :=
            { amount := amount, beforeAmount := beforeAmount, afterAmount := afterAmount
              customerId := customer.referenceId }
          let beforeResult : Except String Unit :=
            match feature.hooks.bind (fun h => h.before) with
            | some h => h input
            | none => Except.ok ()
          match beforeResult with
          | Except.error e => (Except.error (ConsumeError.hookFailure e), l)
          | Except.ok _ =>
              match Adapter.insertUsage l amount customer.referenceId customer.referenceType
                  event feature now fuel with
              | none => (Except.error ConsumeError.adapterFailure, l)
              | some (row, l2) =>
                  match feature.hooks.bind (fun h => h.after) with
                  | some h =>
                      match h input with
                      | Except.error e => (Except.error (ConsumeError.hookFailure e), l2)
                      | Except.ok _ => (Except.ok row, l2)
                  | none => (Except.ok row, l2)

/-- Lookup in the plugin's feature record, whose key order `Object.keys`
reports; the record is embedded as an association list. -/
def lookupFeature (features : List (String × Feature)) (k : String) : Option Feature :=
  (features.find? (fun kv => kv.1 == k)).map (fun kv => kv.2)

/-- Embedding of `registerCustomer` from `src/package/index.ts`
(lines 214-255): store the customer under its `referenceId`, then for every
configured feature key resolve the feature for this customer (its
`overrideKey` included) and run the plugin-level `syncUsage`;
`Promise.allSettled` swallows individual failures, so a feature whose
resolution fails is skipped. The state is the customer map and the ledger. -/
def registerCustomer (customers : String → Option Customer)
    (features : List (String × Feature)) (overrides : String → Option Override)
    (l : Ledger) (customer : Customer) (now : DateTime) :
    (String → Option Customer) × Ledger :=
  let customers2 := fun id => if id = customer.referenceId then some customer else customers id
  let l2 := features.foldl
    (fun acc kv =>
      match getFeature (lookupFeature features) overrides kv.1 customer.overrideKey
          (some customer) with
      | Except.error _ => acc
      | Except.ok feature => (syncUsage acc feature customer now).2)
    l
  (customers2, l2)

/-! Calendar arithmetic lemmas. -/

theorem daysInMonth_le (y : Int) (m : Nat) : daysInMonth y m ≤ 31 := by
  unfold daysInMonth
  split
  all_goals first
    | omega
    | (split <;> omega)

theorem one_le_daysInMonth (y : Int) (m : Nat) : 1 ≤ daysInMonth y m := by
  unfold daysInMonth
  split
  all_goals first
    | omega
    | (split <;> omega)

/-- Milliseconds elapsed since the last midnight. -/
def timeOfDay (t : DateTime) : Int :=
  (t.hour : Int) * 3600000 + (t.minute : Int) * 60000 + (t.second : Int) * 1000 + (t.ms : Int)

theorem atMidnight_key (t : DateTime) : (atMidnight t).key = t.key - timeOfDay t := by
  simp [atMidnight, DateTime.key, timeOfDay]

theorem timeOfDay_nonneg (t : DateTime) : 0 ≤ timeOfDay t := by
  unfold timeOfDay
  positivity

theorem timeOfDay_lt (t : DateTime) (h : t.Valid) : timeOfDay t < 86400000 := by
  obtain ⟨hm, hd1, hd2, hh, hmi, hs, hms⟩ := h
  unfold timeOfDay
  omega

theorem timeOfDay_nextDay (t : DateTime) : timeOfDay (nextDay t) = timeOfDay t := by
  unfold nextDay
  split
  · rfl
  · split <;> rfl

theorem timeOfDay_addDays (n : Nat) : ∀ t : DateTime, timeOfDay (addDays t n) = timeOfDay t := by
  induction n with
  | zero => intro t; rfl
  | succ n ih =>
      intro t
      show timeOfDay (addDays (nextDay t) n) = timeOfDay t
      rw [ih (nextDay t), timeOfDay_nextDay]

theorem nextDay_key_ge (t : DateTime) (h : t.Valid) : t.key + 86400000 ≤ (nextDay t).key := by
  obtain ⟨hm, hd1, hd2, hh, hmi, hs, hms⟩ := h
  have h31 := daysInMonth_le t.year t.month
  unfold nextDay
  split
  · simp [DateTime.key]
    omega
  · split
    · simp [DateTime.key]
      omega
    · simp [DateTime.key]
      omega

theorem nextDay_valid (t : DateTime) (h : t.Valid) : (nextDay t).Valid := by
  obtain ⟨hm, hd1, hd2, hh, hmi, hs, hms⟩ := h
  have hA := one_le_daysInMonth t.year (t.month + 1)
  have hB := one_le_daysInMonth (t.year + 1) 0
  unfold nextDay DateTime.Valid
  split
  · dsimp only
    omega
  · split
    · dsimp only
      omega
    · dsimp only
      omega

theorem addDays_valid (n : Nat) : ∀ t : DateTime, t.Valid → (addDays t n).Valid := by
  induction n with
  | zero => intro t h; exact h
  | succ n ih => intro t h; exact ih (nextDay t) (nextDay_valid t h)

theorem addDays_key_ge (n : Nat) : ∀ t : DateTime, t.Valid → t.key ≤ (addDays t n).key := by
  induction n with
  | zero => intro t _; exact le_refl _
  | succ n ih =>
      intro t h
      have h1 := nextDay_key_ge t h
      have h2 := ih (nextDay t) (nextDay_valid t h)
      show t.key ≤ (addDays (nextDay t) n).key
      omega

theorem lt_key_atMidnight_addDays (t : DateTime) (k : Nat) (h : t.Valid) (hk : 1 ≤ k) :
    t.key < (atMidnight (addDays t k)).key := by
  obtain ⟨m, rfl⟩ : ∃ m, k = m + 1 := ⟨k - 1, by omega⟩
  have h1 := nextDay_key_ge t h
  have h2 := addDays_key_ge m (nextDay t) (nextDay_valid t h)
  have h3 := timeOfDay_lt t h
  have h4 := timeOfDay_nonneg t
  have h5 : (atMidnight (addDays t (m + 1))).key = (addDays t (m + 1)).key - timeOfDay t := by
    rw [atMidnight_key, timeOfDay_addDays]
  have h6 : (addDays t (m + 1)).key = (addDays (nextDay t) m).key := rfl
  omega

theorem lt_key_atMidnight_nextDay (t : DateTime) (hv : t.Valid) :
    t.key < (atMidnight (nextDay t)).key :=
  lt_key_atMidnight_addDays t 1 hv (le_refl 1)

/-- Strictness of the Boundary Calculator: on a valid reference time and any
cadence except `never`, its result is a strictly later instant. -/
theorem computeNextResetTime_key_lt (t : DateTime) (c : ResetType)
    (hv : t.Valid) (hc : c ≠ ResetType.never) : t.key < (computeNextResetTime t c).key := by
  have hfields := hv
  obtain ⟨hm, hd1, hd2, hh, hmi, hs, hms⟩ := hfields
  have h31 := daysInMonth_le t.year t.month
  cases c with
  | never => exact absurd rfl hc
  | hourly =>
      simp only [computeNextResetTime]
      split
      · simp [DateTime.key]
        omega
      · exact lt_key_atMidnight_nextDay t hv
  | sixHourly =>
      simp only [computeNextResetTime]
      split
      · exact lt_key_atMidnight_nextDay t hv
      · simp [DateTime.key]
        omega
  | daily => exact lt_key_atMidnight_nextDay t hv
  | weekly =>
      simp only [computeNextResetTime]
      refine lt_key_atMidnight_addDays t _ hv ?_
      split <;> omega
  | monthly =>
      simp only [computeNextResetTime]
      split
      · simp [atMidnight, DateTime.key]
        omega
      · simp [atMidnight, DateTime.key]
        omega
  | quarterly =>
      simp only [computeNextResetTime]
      split
      · simp [atMidnight, DateTime.key]
        omega
      · simp [atMidnight, DateTime.key]
        omega
  | yearly =>
      simp only [computeNextResetTime]
      simp [atMidnight, DateTime.key]
      omega

/-! Reset Scheduler lemmas. -/

theorem resetIter_of_gt (c : ResetType) (now : DateTime) (fuel : Nat) (t : DateTime)
    (h : now.key < t.key) : resetIter c now fuel t = t := by
  cases fuel with
  | zero => rfl
  | succ n =>
      unfold resetIter
      rw [if_neg]
      omega

/-- On a valid `now` and a cadence other than `never`, the source's
`while` loop exits at once: its result is the first application of the
Boundary Calculator, for every fuel. -/
theorem resetIter_collapse (c : ResetType) (now : DateTime) (fuel : Nat)
    (hv : now.Valid) (hc : c ≠ ResetType.never) :
    resetIter c now fuel (computeNextResetTime now c) = computeNextResetTime now c :=
  resetIter_of_gt c now fuel _ (computeNextResetTime_key_lt now c hv hc)

theorem shouldReset_never (lastReset : Option DateTime) (now : DateTime) (fuel : Nat) :
    shouldReset lastReset ResetType.never now fuel = ⟨false, none⟩ := rfl

theorem shouldReset_eq (lastReset : Option DateTime) (c : ResetType) (now : DateTime)
    (fuel : Nat) (hv : now.Valid) (hc : c ≠ ResetType.never) :
    shouldReset lastReset c now fuel =
      ⟨lastReset.elim true (fun lr => decide (lr.key < (computeNextResetTime now c).key)),
        some (computeNextResetTime now c)⟩ := by
  unfold shouldReset
  rw [if_neg hc, resetIter_collapse c now fuel hv hc]
  cases lastReset with
  | none => rfl
  | some lr =>
      dsimp only [Option.elim]
      by_cases h : lr.key < (computeNextResetTime now c).key
      · rw [if_pos h]
        simp [h]
      · rw [if_neg h]
        simp [h]

theorem shouldReset_nextReset_isSome (last : Option DateTime) (c : ResetType)
    (now : DateTime) (fuel : Nat)
    (h : (shouldReset last c now fuel).shouldReset = true) :
    (shouldReset last c now fuel).nextReset.isSome := by
  unfold shouldReset at h ⊢
  by_cases hc : c = ResetType.never
  · rw [if_pos hc] at h
    exact absurd h (by simp)
  · rw [if_neg hc] at h ⊢
    cases last with
    | none => rfl
    | some lr =>
        dsimp only at h ⊢
        split <;> rfl

/-- Both arms of the transactional insert append exactly one row. -/
theorem insertUsage_appends (l : Ledger) (amount : Int)
    (referenceId referenceType event : String) (feature : Feature) (now : DateTime)
    (fuel : Nat) (row : UsageRow) (l2 : Ledger)
    (h : Adapter.insertUsage l amount referenceId referenceType event feature now fuel
          = some (row, l2)) : l2 = l ++ [row] := by
  unfold Adapter.insertUsage at h
  dsimp only at h
  split at h
  · rw [Option.some.injEq, Prod.mk.injEq] at h
    rw [← h.2, h.1]
  · split at h
    · exact absurd h (by simp)
    · rw [Option.some.injEq, Prod.mk.injEq] at h
      rw [← h.2, h.1]

/-! Sample values used by the concrete witnesses and counterexamples. -/

/-- Sample instant: 2024-06-14, 10:30:00.000 local time. -/
def sampleNow : DateTime := ⟨2024, 5, 14, 10, 30, 0, 0⟩

/-- Sample instant one hour earlier on the same day. -/
def sampleEarlier : DateTime := ⟨2024, 5, 14, 9, 0, 0, 0⟩

/-- A feature with a daily reset cadence and no explicit `resetValue`. -/
def dailyFeature : Feature := { key := "api", reset := some ResetType.daily }

/-- A feature with no reset cadence configured at all. -/
def neverFeature : Feature := { key := "api" }

/-- A feature with a daily cadence and `resetValue = 5`. -/
def seededFeature : Feature :=
  { key := "api", reset := some ResetType.daily, resetValue := some 5 }

def sampleCustomer : Customer := { referenceId := "u1", referenceType := "user" }

def oneCustomer : String → Option Customer :=
  fun id => if id = "u1" then some sampleCustomer else none

def noOverrides : String → Option Override := fun _ => none

/-- C1. The Limit Evaluator at the failing inputs of the claim: a `maxLimit`
configured as exactly 0 (with `minLimit` absent) does not constrain `value = 1`,
and a `minLimit` of exactly 0 does not constrain `value = -1` — the truthiness
guard `if (maxLimit && ...)` treats the configured 0 as absent, so `checkLimit`
answers `in-limit` where the claim requires `above-max-limit` (resp.
`below-min-limit`). -/
theorem checkLimit_zero_limit_not_enforced :
    checkLimit (some 0) none 1 = ConsumptionLimitType.inLimit
      ∧ checkLimit none (some 0) (-1) = ConsumptionLimitType.inLimit := by
  constructor <;> rfl

def baseFeature : Feature := { key := "api", maxLimit := some 10 }

def overridePatch : PartialFeature := { maxLimit := some (some 5) }

def sampleFeatures : String → Option Feature :=
  fun k => if k = "api" then some baseFeature else none

def sampleOverrides : String → Option Override :=
  fun k => if k = "pro" then some ⟨fun fk => if fk = "api" then some overridePatch else none⟩
    else none

/-- C2. With a base feature `"api"` (maxLimit 10) and an override `"pro"`
whose partial feature for `"api"` sets maxLimit 5: the plugin's `getFeature`
returns the base, unmerged (it reads `overrides[featureKey]` although its own
guard checked `overrides[overrideKey]`), while `resolveFeature` — the resolver
revision of the same function — returns the merged feature the claim
describes. -/
theorem getFeature_override_lookup_mismatch :
    (getFeature sampleFeatures sampleOverrides "api" (some "pro") none).map
        (fun f => f.maxLimit) = Except.ok (some 10)
      ∧ (resolveFeature "api" (some "pro") sampleFeatures sampleOverrides).map
        (fun f => f.maxLimit) = Except.ok (some 5) := by
  constructor <;> rfl

/-- C5. The Reset Scheduler's decision procedure, exactly as specified: for
`never` the result is `{due: false}`; for every other cadence and valid `now`
the upcoming boundary produced by the (fuel-irrelevant) iteration of the
Boundary Calculator from `now` equals its first application and lies strictly
after `now`, and `due` is `lastBoundary is null OR lastBoundary <
upcomingBoundary`; in particular a stream with no recorded boundary is always
due. -/
theorem shouldReset_implements_scheduler_spec (last : Option DateTime) (c : ResetType)
    (now : DateTime) (fuel : Nat) (hv : now.Valid) :
    shouldReset last ResetType.never now fuel = ⟨false, none⟩
      ∧ (c ≠ ResetType.never →
          (shouldReset last c now fuel).nextReset = some (computeNextResetTime now c)
            ∧ now.key < (computeNextResetTime now c).key
            ∧ (shouldReset last c now fuel).shouldReset
              = last.elim true (fun lr => decide (lr.key < (computeNextResetTime now c).key))
            ∧ (shouldReset none c now fuel).shouldReset = true) := by
  refine ⟨shouldReset_never last now fuel, fun hc => ?_⟩
  rw [shouldReset_eq last c now fuel hv hc, shouldReset_eq none c now fuel hv hc]
  exact ⟨rfl, computeNextResetTime_key_lt now c hv hc, rfl, rfl⟩

theorem shouldReset_implements_scheduler_spec_witness :
    (shouldReset none ResetType.daily sampleNow 0).shouldReset = true :=
  ((shouldReset_implements_scheduler_spec none ResetType.daily sampleNow 0
    (by decide)).2 (by decide)).2.2.2

/-- C8. For every valid reference time and every cadence except `never`, the
Boundary Calculator returns a strictly later instant
(`computeNextResetTime(t, c) > t`), even when the reference time sits exactly
on a boundary such as a midnight or a first of January. -/
theorem computeNextResetTime_strictly_future (t : DateTime) (c : ResetType)
    (hv : t.Valid) (hc : c ≠ ResetType.never) : t.key < (computeNextResetTime t c).key :=
  computeNextResetTime_key_lt t c hv hc

theorem computeNextResetTime_strictly_future_witness :
    DateTime.Valid ⟨2024, 0, 1, 0, 0, 0, 0⟩
      ∧ (DateTime.key ⟨2024, 0, 1, 0, 0, 0, 0⟩
          < (computeNextResetTime ⟨2024, 0, 1, 0, 0, 0, 0⟩ ResetType.daily).key) :=
  ⟨by decide, computeNextResetTime_strictly_future ⟨2024, 0, 1, 0, 0, 0, 0⟩
    ResetType.daily (by decide) (by decide)⟩

/-- C3. Whenever the transactional insert commits a row, its `afterAmount` is
`resetValue (default 0) + amount` when the Reset Scheduler reports a reset due
for the stream's freshly read latest row, and `beforeAmount + amount`
otherwise, where `beforeAmount` is the latest row's `afterAmount` (0 for an
empty stream). -/
theorem insertUsage_afterAmount_formula (l : Ledger) (amount : Int)
    (referenceId referenceType event : String) (feature : Feature) (now : DateTime)
    (fuel : Nat) (row : UsageRow) (l2 : Ledger)
    (h : Adapter.insertUsage l amount referenceId referenceType event feature now fuel
          = some (row, l2)) :
    row.afterAmount =
      if (shouldReset ((findLatestUsage l referenceId feature.key none).bind
              (fun r => r.lastResetAt)) (feature.reset.getD ResetType.never) now
            fuel).shouldReset
      then feature.resetValue.getD 0 + amount
      else ((findLatestUsage l referenceId feature.key none).map
          (fun r => r.afterAmount)).getD 0 + amount := by
  unfold Adapter.insertUsage at h
  dsimp only at h
  cases hS : (shouldReset ((findLatestUsage l referenceId feature.key none).bind
      (fun r => r.lastResetAt)) (feature.reset.getD ResetType.never) now
        fuel).shouldReset with
  | false =>
      rw [hS] at h
      dsimp only at h
      rw [if_neg (by simp [hS])]
      revert h
      cases hL : findLatestUsage l referenceId feature.key none with
      | none => intro h; exact absurd h (by simp)
      | some lastRow =>
          intro h
          rw [Option.some.injEq, Prod.mk.injEq] at h
          rw [← h.1]
          simp only [Option.map_some', Option.getD_some]
          omega
  | true =>
      cases hN : (shouldReset ((findLatestUsage l referenceId feature.key none).bind
          (fun r => r.lastResetAt)) (feature.reset.getD ResetType.never) now
            fuel).nextReset with
      | none =>
          have := shouldReset_nextReset_isSome _ _ _ _ hS
          rw [hN] at this
          exact absurd this (by simp)
      | some nr =>
          rw [hS, hN] at h
          dsimp only at h
          rw [Option.some.injEq, Prod.mk.injEq] at h
          rw [← h.1]
          rw [if_pos (by simp [hS])]
          dsimp only
          omega

/-- Row produced by the first insert on an empty stream with `dailyFeature`
at `sampleNow` (reset due, `resetValue` defaulted to 0). -/
def sampleRow : UsageRow :=
  { referenceId := "u1", referenceType := "user", feature := "api", event := "use",
    amount := 1, afterAmount := 1,
    lastResetAt := some (computeNextResetTime sampleNow ResetType.daily),
    createdAt := sampleNow }

theorem insertUsage_afterAmount_formula_witness :
    Adapter.insertUsage [] 1 "u1" "user" "use" dailyFeature sampleNow 0
        = some (sampleRow, [sampleRow])
      ∧ sampleRow.afterAmount = 1 :=
  ⟨by decide,
    (insertUsage_afterAmount_formula [] 1 "u1" "user" "use" dailyFeature sampleNow 0
      sampleRow [sampleRow] (by decide)).trans (by decide)⟩

/-- C7. The very first append on an empty stream: with no reset cadence
configured (treated as `never`) the transactional insert dereferences
`lastUsage[0].lastResetAt` on an empty query result and throws — no row is
appended at all; and with a cadence due plus `resetValue = 5` the first row's
`afterAmount` is `6`, not the claimed `amount = 1`. -/
theorem insertUsage_first_append_divergence :
    Adapter.insertUsage [] 1 "u1" "user" "use" neverFeature sampleNow 0 = none
      ∧ (Adapter.insertUsage [] 1 "u1" "user" "use" seededFeature sampleNow 0).map
          (fun p => p.1.afterAmount) = some 6 := by
  constructor <;> rfl

/-! C6 setup: an after-hook that always throws. -/

def boomHook : Hook := fun _ => Except.error "boom"

def hookedFeature : Feature :=
  { key := "api", reset := some ResetType.daily, hooks := some { after := some boomHook } }

def hookedFeatures : String → Option Feature :=
  fun k => if k = "api" then some hookedFeature else none

/-- C6 counterexample. With a committed insert and an after-hook that throws,
the consume endpoint reports the hook failure to the caller — not success as
the claim states — even though the committed row stays in the ledger. -/
theorem consume_after_hook_error_surfaces :
    (consumeFeature oneCustomer hookedFeatures noOverrides "u1" "api" none 1 "use"
        [] sampleNow 0).1 = Except.error (ConsumeError.hookFailure "boom")
      ∧ (consumeFeature oneCustomer hookedFeatures noOverrides "u1" "api" none 1 "use"
        [] sampleNow 0).2.length = 1 := by
  constructor <;> rfl

/-- C6 as amended. When the customer and feature resolve, the before-hook slot
is empty, the transactional insert commits a row, and the configured
after-hook fails, the consume operation keeps the committed row (the ledger is
the base ledger plus that row) but propagates the hook failure to the caller
instead of reporting success. -/
theorem consume_after_hook_error_keeps_row (customers : String → Option Customer)
    (features : String → Option Feature) (overrides : String → Option Override)
    (referenceId featureKey : String) (overrideKey : Option String)
    (amount : Int) (event : String) (l : Ledger) (now : DateTime) (fuel : Nat)
    (customer : Customer) (feature : Feature) (hk : Hook) (e : String)
    (row : UsageRow) (l2 : Ledger)
    (hcust : customers referenceId = some customer)
    (hfeat : getFeature features overrides featureKey overrideKey (some customer)
      = Except.ok feature)
    (hbefore : feature.hooks.bind (fun h => h.before) = none)
    (hafter : feature.hooks.bind (fun h => h.after) = some hk)
    (hfail : ∀ x, hk x = Except.error e)
    (hins : Adapter.insertUsage l amount customer.referenceId customer.referenceType
        event feature now fuel = some (row, l2)) :
    consumeFeature customers features overrides referenceId featureKey overrideKey
        amount event l now fuel = (Except.error (ConsumeError.hookFailure e), l ++ [row]) := by
  have happ := insertUsage_appends l amount customer.referenceId customer.referenceType
    event feature now fuel row l2 hins
  unfold consumeFeature
  rw [hcust]
  dsimp only
  rw [hfeat]
  dsimp only
  rw [hbefore]
  dsimp only
  rw [hins]
  dsimp only
  rw [hafter]
  dsimp only
  rw [hfail]
  dsimp only
  rw [happ]

theorem consume_after_hook_error_keeps_row_witness :
    consumeFeature oneCustomer hookedFeatures noOverrides "u1" "api" none 1 "use"
        [] sampleNow 0
      = (Except.error (ConsumeError.hookFailure "boom"), [] ++ [sampleRow]) :=
  consume_after_hook_error_keeps_row oneCustomer hookedFeatures noOverrides "u1" "api"
    none 1 "use" [] sampleNow 0 sampleCustomer hookedFeature boomHook "boom" sampleRow
    [sampleRow] rfl rfl rfl rfl (fun _ => rfl) (by decide)

/-- C4 counterexample. Plugin-level `sync` run twice in immediate succession on
an empty stream with a daily cadence: the first call appends a reset row; the
second call, whose due-check compares that row's `createdAt` (the wall time of
insertion, still before the boundary) against the upcoming boundary, appends a
second reset row — the ledger ends with two reset rows, not one. -/
theorem syncUsage_second_call_appends_again :
    ((syncUsage [] dailyFeature sampleCustomer sampleNow).1).isReset = true
      ∧ ((syncUsage (syncUsage [] dailyFeature sampleCustomer sampleNow).2 dailyFeature
          sampleCustomer sampleNow).1).isReset = true
      ∧ (syncUsage (syncUsage [] dailyFeature sampleCustomer sampleNow).2 dailyFeature
          sampleCustomer sampleNow).2.length = 2 := by
  refine ⟨?_, ?_, ?_⟩ <;> decide

/-- C4 as amended. The adapter-level `syncUsage` is idempotent per boundary:
once a sync call has appended a reset row (which records the upcoming boundary
in `lastResetAt`), a second call that still computes the same upcoming
boundary (i.e. runs before the next boundary is crossed) reads that row back
and reports not due, appending nothing. -/
theorem adapter_syncUsage_idempotent (l : Ledger)
    (referenceId referenceType featureKey : String) (c : ResetType)
    (resetValue : Option Int) (now1 now2 : DateTime) (fuel1 fuel2 : Nat)
    (row : UsageRow) (l2 : Ledger)
    (hc : c ≠ ResetType.never) (hv1 : now1.Valid) (hv2 : now2.Valid)
    (h1 : Adapter.syncUsage l referenceId referenceType featureKey (some c) resetValue
        now1 fuel1 = some (some row, l2))
    (hlatest : findLatestByReference l2 referenceId = some row)
    (hsame : computeNextResetTime now2 c = computeNextResetTime now1 c) :
    Adapter.syncUsage l2 referenceId referenceType featureKey (some c) resetValue
      now2 fuel2 = some (none, l2) := by
  have hrow : row.lastResetAt = some (computeNextResetTime now1 c) := by
    unfold Adapter.syncUsage at h1
    dsimp only at h1
    revert h1
    cases hL : findLatestByReference l referenceId with
    | none => intro h1; exact absurd h1 (by simp)
    | some lastRow =>
        intro h1
        dsimp only at h1
        rw [Option.getD_some] at h1
        rw [shouldReset_eq lastRow.lastResetAt c now1 fuel1 hv1 hc] at h1
        dsimp only at h1
        revert h1
        cases hE : lastRow.lastResetAt.elim true
            (fun lr => decide (lr.key < (computeNextResetTime now1 c).key)) with
        | false => intro h1; simp at h1
        | true =>
            intro h1
            rw [Option.some.injEq, Prod.mk.injEq, Option.some.injEq] at h1
            rw [← h1.1]
  unfold Adapter.syncUsage
  dsimp only
  rw [hlatest]
  dsimp only
  rw [Option.getD_some, hrow]
  rw [shouldReset_eq (some (computeNextResetTime now1 c)) c now2 fuel2 hv2 hc, hsame]
  dsimp only [Option.elim]
  simp [lt_irrefl]

/-- A plain usage row already present on the stream before the first sync. -/
def seedRow : UsageRow :=
  { referenceId := "u1", referenceType := "user", feature := "api", event := "use",
    amount := 2, afterAmount := 2, lastResetAt := none, createdAt := sampleEarlier }

/-- The boundary the daily cadence computes from `sampleNow`. -/
def sampleBoundary : DateTime := computeNextResetTime sampleNow ResetType.daily

/-- Reset row the adapter-level sync appends at `sampleNow`. -/
def resetRowSample : UsageRow :=
  { referenceId := "u1", referenceType := "user", feature := "api", event := "reset",
    amount := 0, afterAmount := 0, lastResetAt := some sampleBoundary,
    createdAt := sampleBoundary }

theorem adapter_syncUsage_idempotent_witness :
    Adapter.syncUsage [seedRow, resetRowSample] "u1" "user" "api"
        (some ResetType.daily) none sampleNow 0
      = some (none, [seedRow, resetRowSample]) :=
  adapter_syncUsage_idempotent [seedRow] "u1" "user" "api" ResetType.daily none
    sampleNow sampleNow 0 0 resetRowSample [seedRow, resetRowSample]
    (by decide) (by decide) (by decide) (by decide) (by decide) rfl

/-- A feature with the given key and cadence and no other configuration, as
used by the concurrency scenario (resetValue defaulted). -/
def mkFeature (k : String) (c : ResetType) : Feature :=
  { key := k, reset := some c }

/-- Row committed by the first of the two concurrent unit consumes. -/
def firstConsumeRow (referenceId referenceType e1 k : String) (c : ResetType)
    (t1 : DateTime) : UsageRow :=
  { referenceId := referenceId, referenceType := referenceType, feature := k, event := e1,
    amount := 1, afterAmount := 1,
    lastResetAt := some (computeNextResetTime t1 c), createdAt := t1 }

/-- Row committed by the second of the two concurrent unit consumes. -/
def secondConsumeRow (referenceId referenceType e2 k : String) (c : ResetType)
    (t1 t2 : DateTime) : UsageRow :=
  { referenceId := referenceId, referenceType := referenceType, feature := k, event := e2,
    amount := 1, afterAmount := 2,
    lastResetAt := some (computeNextResetTime t1 c), createdAt := t2 }

/-- C9. Two serialized executions of the transactional append (the atomic unit
the Storage Adapter contract guarantees), each consuming amount 1 on an
initially empty stream within the same reset period: whichever runs first, the
second one re-reads the freshly committed row inside its own transaction, so
the final latest row's cumulative `afterAmount` is exactly 2 — no lost
update. The event tags `e1`, `e2` are arbitrary, so the statement covers both
commit orders of the two calls. -/
theorem concurrent_consumes_total_two (k referenceId referenceType e1 e2 : String)
    (c : ResetType) (t1 t2 : DateTime) (f1 f2 : Nat)
    (hc : c ≠ ResetType.never) (hv1 : t1.Valid) (hv2 : t2.Valid)
    (ht : t1.key < t2.key)
    (hsame : computeNextResetTime t2 c = computeNextResetTime t1 c) :
    Adapter.insertUsage [] 1 referenceId referenceType e1 (mkFeature k c) t1 f1
        = some (firstConsumeRow referenceId referenceType e1 k c t1,
            [firstConsumeRow referenceId referenceType e1 k c t1])
      ∧ Adapter.insertUsage [firstConsumeRow referenceId referenceType e1 k c t1] 1
          referenceId referenceType e2 (mkFeature k c) t2 f2
        = some (secondConsumeRow referenceId referenceType e2 k c t1 t2,
            [firstConsumeRow referenceId referenceType e1 k c t1,
              secondConsumeRow referenceId referenceType e2 k c t1 t2])
      ∧ (findLatestUsage
            [firstConsumeRow referenceId referenceType e1 k c t1,
              secondConsumeRow referenceId referenceType e2 k c t1 t2]
            referenceId (mkFeature k c).key none).map (fun r => r.afterAmount)
        = some 2 := by
  have hnil : findLatestUsage [] referenceId (mkFeature k c).key none = none := rfl
  have hone : findLatestUsage [firstConsumeRow referenceId referenceType e1 k c t1]
      referenceId (mkFeature k c).key none
        = some (firstConsumeRow referenceId referenceType e1 k c t1) := by
    simp [findLatestUsage, findLatestBy, firstConsumeRow, mkFeature]
  refine ⟨?_, ?_, ?_⟩
  · unfold Adapter.insertUsage
    dsimp only
    rw [hnil]
    dsimp only [Option.bind]
    rw [show (mkFeature k c).reset.getD ResetType.never = c from rfl]
    rw [shouldReset_eq none c t1 f1 hv1 hc]
    dsimp only [Option.elim]
    simp [firstConsumeRow, mkFeature]
  · unfold Adapter.insertUsage
    dsimp only
    rw [hone]
    dsimp only [Option.bind]
    rw [show (mkFeature k c).reset.getD ResetType.never = c from rfl]
    rw [show (firstConsumeRow referenceId referenceType e1 k c t1).lastResetAt
        = some (computeNextResetTime t1 c) from rfl]
    rw [shouldReset_eq (some (computeNextResetTime t1 c)) c t2 f2 hv2 hc, hsame]
    dsimp only [Option.elim]
    simp only [lt_irrefl, decide_False]
    simp [secondConsumeRow, firstConsumeRow, mkFeature]
  · simp only [findLatestUsage, findLatestBy, mkFeature, List.filter, List.foldl]
    simp [firstConsumeRow, secondConsumeRow, ht]

theorem concurrent_consumes_total_two_witness :
    (findLatestUsage
        [firstConsumeRow "u1" "user" "a" "api" ResetType.daily sampleEarlier,
          secondConsumeRow "u1" "user" "b" "api" ResetType.daily sampleEarlier sampleNow]
        "u1" (mkFeature "api" ResetType.daily).key none).map (fun r => r.afterAmount)
      = some 2 :=
  (concurrent_consumes_total_two "api" "u1" "user" "a" "b" ResetType.daily sampleEarlier
    sampleNow 0 0 (by decide) (by decide) (by decide) (by decide) (by decide)).2.2

/-- One plugin-level sync step either leaves the ledger unchanged or appends a
single zero-amount `"reset"` row for the customer's stream. -/
theorem syncUsage_ledger_shape (l : Ledger) (feature : Feature) (customer : Customer)
    (now : DateTime) :
    (syncUsage l feature customer now).2 = l
      ∨ ∃ row, (syncUsage l feature customer now).2 = l ++ [row]
          ∧ row.event = "reset" ∧ row.amount = 0
          ∧ row.referenceId = customer.referenceId := by
  unfold syncUsage
  cases hr : feature.reset with
  | none => left; rfl
  | some c =>
      cases c <;>
        first
          | (left; rfl)
          | (dsimp only [Adapter.insertUsagePlain]
             split
             · right
               exact ⟨_, rfl, rfl, rfl, rfl⟩
             · left
               rfl)

/-- The per-feature sync fold of `registerCustomer` only ever appends
zero-amount reset rows for the registered customer. -/
theorem syncFold_shape (customer : Customer) (now : DateTime)
    (overrides : String → Option Override) (lookup : String → Option Feature) :
    ∀ (keys : List (String × Feature)) (l : Ledger),
      ∃ rows,
        keys.foldl (fun acc kv =>
            match getFeature lookup overrides kv.1 customer.overrideKey (some customer) with
            | Except.error _ => acc
            | Except.ok feature => (syncUsage acc feature customer now).2) l
          = l ++ rows
        ∧ ∀ r ∈ rows, r.event = "reset" ∧ r.amount = 0
            ∧ r.referenceId = customer.referenceId := by
  intro keys
  induction keys with
  | nil => exact fun l => ⟨[], by simp, by simp⟩
  | cons kv rest ih =>
      intro l
      rw [List.foldl_cons]
      cases hg : getFeature lookup overrides kv.1 customer.overrideKey (some customer) with
      | error e =>
          obtain ⟨rows, h1, h2⟩ := ih l
          refine ⟨rows, ?_, h2⟩
          dsimp only
          exact h1
      | ok feature =>
          rcases syncUsage_ledger_shape l feature customer now with hsame
            | ⟨row, hrow, hre, hra, hrr⟩
          · obtain ⟨rows, h1, h2⟩ := ih l
            refine ⟨rows, ?_, h2⟩
            dsimp only
            rw [hsame]
            exact h1
          · obtain ⟨rows, h1, h2⟩ := ih (l ++ [row])
            refine ⟨row :: rows, ?_, ?_⟩
            · dsimp only
              rw [hrow, h1, List.append_assoc]
              rfl
            · intro r hr
              rcases List.mem_cons.mp hr with hr1 | hr2
              · rw [hr1]
                exact ⟨hre, hra, hrr⟩
              · exact h2 r hr2

/-- C10. `registerCustomer` is not effect-free beyond the customer store: it
writes exactly the registered customer under its `referenceId` (every other
key of the customer map is untouched), and its per-feature reset sync extends
the ledger by zero or more zero-amount `"reset"` rows for that customer's
streams; no other state is modified. -/
theorem registerCustomer_frame_effects (customers : String → Option Customer)
    (features : List (String × Feature)) (overrides : String → Option Override)
    (l : Ledger) (customer : Customer) (now : DateTime) :
    (registerCustomer customers features overrides l customer now).1 customer.referenceId
        = some customer
      ∧ (∀ id, id ≠ customer.referenceId →
          (registerCustomer customers features overrides l customer now).1 id
            = customers id)
      ∧ ∃ rows,
          (registerCustomer customers features overrides l customer now).2 = l ++ rows
            ∧ ∀ r ∈ rows, r.event = "reset" ∧ r.amount = 0
                ∧ r.referenceId = customer.referenceId := by
  refine ⟨?_, ?_, ?_⟩
  · simp [registerCustomer]
  · intro id hid
    simp [registerCustomer, hid]
  · exact syncFold_shape customer now overrides (lookupFeature features) features l

theorem registerCustomer_frame_effects_witness :
    (registerCustomer (fun _ => none) [("api", dailyFeature)] noOverrides [] sampleCustomer
        sampleNow).1 "other" = none :=
  (registerCustomer_frame_effects (fun _ => none) [("api", dailyFeature)] noOverrides []
    sampleCustomer sampleNow).2.1 "other" (by decide)
